import Mathlib

set_option maxRecDepth 1000000
set_option maxHeartbeats 1000000

/-!
Verification of the mms-monthly-cli scraping/download library
(`mms_monthly_cli/mms_monthly.py`) against its natural-language design
specification.

The shallow embedding below models the library over an abstract "web"
environment: a `Web` value records what every HTML directory listing
contains (`pages`), the HEAD-reported size of every remote archive
(`sizes`), the entry list of the zip served at every URL (`zipEntries`),
whether that zip fails its integrity check during extraction
(`zipCorrupt`), and whether the streaming GET for a URL returns a 2xx
status (`httpOk`).  All library functions are pure functions of a `Web`.
Fallible operations return `Except MmsError`; the filesystem side effects
of the download-and-extract routine are recorded as an `FsEvent` trace.

The specific Python regular expressions used by the source are embedded
as executable functions over `List Char` with Python `re.match`
semantics: anchored at the start, unanchored at the end, with greedy
backtracking (a greedy piece takes the largest extent for which the rest
of the pattern can still match).
-/

namespace MmsMonthly

/-! Character and string utilities mirroring the Python primitives. -/

/-- Decimal digit character for a value below ten (used by `natDigits`). -/
def digitChar : Nat → Char
  | 0 => '0' | 1 => '1' | 2 => '2' | 3 => '3' | 4 => '4'
  | 5 => '5' | 6 => '6' | 7 => '7' | 8 => '8' | _ => '9'

/-- Fuel-driven workhorse of `natDigits`; structural recursion on the
fuel keeps it reducible inside the kernel.  `n + 1` units of fuel always
suffice because the value shrinks at every division by ten. -/
def natDigitsAux : Nat → Nat → List Char
  | 0, _ => []
  | fuel + 1, n =>
    if n < 10 then [digitChar n]
    else natDigitsAux fuel (n / 10) ++ [digitChar (n % 10)]

/-- Decimal digit string of a natural number, as Python `str(n)` produces
for a non-negative integer. -/
def natDigits (n : Nat) : List Char := natDigitsAux (n + 1) n

/-- Python `str(n)` for a natural number. -/
def strNat (n : Nat) : String := ⟨natDigits n⟩

/-- Python `s.rjust(2, "0")`. -/
def rjust2 (s : String) : String :=
  if s.length ≥ 2 then s else ⟨List.replicate (2 - s.length) '0'⟩ ++ s

/-- Boolean test that `pat` is an initial segment of `s`. -/
def listPrefixB : List Char → List Char → Bool
  | [], _ => true
  | _ :: _, [] => false
  | p :: ps, c :: cs => p == c && listPrefixB ps cs

/-- Boolean test that `pat` occurs in `s` starting at index `i`. -/
def strAt (pat s : List Char) (i : Nat) : Bool := listPrefixB pat (s.drop i)

/-- Boolean test that `p` occurs somewhere in `s` as a contiguous block. -/
def hasSub (p : List Char) : List Char → Bool
  | [] => p.isEmpty
  | c :: rest => listPrefixB p (c :: rest) || hasSub p rest

/-- Largest index `i < n` satisfying `p`, if any.  This is how the greedy
backtracking of a leading `.*` in a Python regex picks a starting point:
the rightmost position at which the remainder of the pattern matches. -/
def lastIdxWhere (p : Nat → Bool) (n : Nat) : Option Nat :=
  ((List.range n).filter p).getLast?

/-- Character of `s` at index `i`, if in range. -/
def charAt (s : List Char) (i : Nat) : Option Char := (s.drop i).head?

/-- Length of the maximal run of characters satisfying `p` at the head. -/
def runLen (p : Char → Bool) : List Char → Nat
  | [] => 0
  | c :: rest => if p c then runLen p rest + 1 else 0

/-- Split a character list at every slash (Python `str.split("/")`). -/
def splitSlash : List Char → List (List Char)
  | [] => [[]]
  | c :: rest =>
    if c = '/' then [] :: splitSlash rest
    else
      match splitSlash rest with
      | [] => [[c]]
      | seg :: segs => (c :: seg) :: segs

/-- Python `pathlib.Path(s).name`: the final path component, after
dropping empty and `.` components (pathlib collapses duplicate slashes,
ignores a trailing slash and drops `.` parts). -/
def pathName (s : String) : String :=
  ⟨(((splitSlash s.data).filter
      (fun seg => !(seg = []) && !(seg = ['.']))).getLast?).getD []⟩

/-! Embeddings of the specific regular expressions used by the source. -/

/-- The pattern `DATA/` as characters. -/
def dataSlash : List Char := ['D', 'A', 'T', 'A', '/']

/-- The literal tail `zip` as characters. -/
def zipPat : List Char := ['z', 'i', 'p']

/-- Case-insensitive `csv` at index `k` of `s`
(the character class part of the pattern `(.*).[cC][sS][vV]`). -/
def ciCsvAt (s : List Char) (k : Nat) : Bool :=
  match s.drop k with
  | c :: v :: w :: _ =>
    (c == 'c' || c == 'C') && (v == 's' || v == 'S') && (w == 'v' || w == 'V')
  | _ => false

/-- Group 1 of Python `re.match("(.*).[cC][sS][vV]", s)`.  The greedy
group ends just before the single wildcard character preceding the last
case-insensitive `csv` occurrence at index at least 1; the dot before the
class is an unescaped wildcard and there is no end anchor. -/
def matchCsvGroup (s : List Char) : Option (List Char) :=
  match lastIdxWhere (fun k => decide (1 ≤ k) && ciCsvAt s k) s.length with
  | some k => some (s.take (k - 1))
  | none => none

/-- String form of `matchCsvGroup`. -/
def matchCsvGroupS (s : String) : Option String :=
  (matchCsvGroup s.data).map (fun l => ⟨l⟩)

/-- Rightmost occurrence of the literal `zip` at index `k ≥ i + 6` in `s`:
the landing spot of the greedy `(.*).zip` tail once `DATA/` was matched
at index `i` (one wildcard character must separate the group from `zip`,
and the dot in `.zip` is an unescaped wildcard). -/
def zipAfter (s : List Char) (i : Nat) : Option Nat :=
  lastIdxWhere (fun k => decide (i + 6 ≤ k) && strAt zipPat s k) s.length

/-- Group 1 of Python `re.match(".*DATA/(.*).zip", s)`: take the
rightmost `DATA/` occurrence for which the remainder matches, then the
greedy group runs to just before the wildcard preceding the rightmost
later `zip`. -/
def matchDataZipGroup (s : List Char) : Option (List Char) :=
  match lastIdxWhere (fun i => strAt dataSlash s i && (zipAfter s i).isSome)
      s.length with
  | some i =>
    match zipAfter s i with
    | some k => some ((s.take (k - 1)).drop (i + 5))
    | none => none
  | none => none

/-- String form of `matchDataZipGroup`. -/
def matchDataZipGroupS (s : String) : Option String :=
  (matchDataZipGroup s.data).map (fun l => ⟨l⟩)

/-- Character class `[A-Z_0-9]` of the table-name capture group. -/
def isTableChar (c : Char) : Bool :=
  ('A' ≤ c && c ≤ 'Z') || c == '_' || c.isDigit

/-- After the capture group ended at underscore position `q`, the rest of
the table pattern `_[0-9]*.zip` matches: some (backtrackable) digit run of
length `m` is followed by one wildcard character and the literal `zip`. -/
def tableTailOk (s : List Char) (q : Nat) : Bool :=
  (List.range (runLen Char.isDigit (s.drop (q + 1)) + 1)).any
    (fun m => strAt zipPat s (q + 2 + m))

/-- Greedy length of the capture group `([A-Z_0-9]*)` starting at `j`:
the largest `n` within the class run such that an underscore follows and
the tail pattern still matches. -/
def tableNAt (s : List Char) (j : Nat) : Option Nat :=
  lastIdxWhere
    (fun n => (charAt s (j + n) == some '_') && tableTailOk s (j + n))
    (runLen isTableChar (s.drop j) + 1)

/-- The literal `/PUBLIC_DVD_` as characters (12 characters). -/
def pubPat : List Char := "/PUBLIC_DVD_".data

/-- Group 1 of Python `re.match(".*/PUBLIC_DVD_([A-Z_0-9]*)_[0-9]*.zip", s)`. -/
def matchTableGroup (s : List Char) : Option (List Char) :=
  match lastIdxWhere
      (fun i => strAt pubPat s i && (tableNAt s (i + 12)).isSome) s.length with
  | some i =>
    match tableNAt s (i + 12) with
    | some n => some ((s.drop (i + 12)).take n)
    | none => none
  | none => none

/-- String form of `matchTableGroup`. -/
def matchTableGroupS (s : String) : Option String :=
  (matchTableGroup s.data).map (fun l => ⟨l⟩)

/-- Python `s.lstrip("_")`. -/
def lstripUnderscore (s : String) : String :=
  ⟨s.data.dropWhile (fun c => c == '_')⟩

/-- Four decimal digits at index `i` of `s` (the `[0-9]{4}` block). -/
def digits4At (s : List Char) (i : Nat) : Bool :=
  match s.drop i with
  | a :: b :: c :: d :: _ => a.isDigit && b.isDigit && c.isDigit && d.isDigit
  | _ => false

/-- Two decimal digits at index `i` of `s` (the `([0-9]{2})` group). -/
def digits2At (s : List Char) (i : Nat) : Bool :=
  match s.drop i with
  | a :: b :: _ => a.isDigit && b.isDigit
  | _ => false

/-- Python `int(...)` on a decimal digit string. -/
def digitsToNat (l : List Char) : Nat :=
  l.foldl (fun acc c => acc * 10 + (c.toNat - 48)) 0

/-- Group 1 of Python `re.match(r".*([0-9]{4}).*", s)` converted with
`int`: the year named by the rightmost four-digit run of the link. -/
def yearMatch (s : List Char) : Option Nat :=
  match lastIdxWhere (fun i => digits4At s i) s.length with
  | some i => some (digitsToNat ((s.drop i).take 4))
  | none => none

/-- String form of `yearMatch`. -/
def yearMatchS (s : String) : Option Nat := yearMatch s.data

/-- Group 1 of Python `re.match(r".*[0-9]{4}_([0-9]{2})", s)` converted
with `int`: the two-digit month following the rightmost `YYYY_MM` shape. -/
def monthMatch (s : List Char) : Option Nat :=
  match lastIdxWhere
      (fun i => digits4At s i && (charAt s (i + 4) == some '_')
        && digits2At s (i + 5)) s.length with
  | some i => some (digitsToNat ((s.drop (i + 5)).take 2))
  | none => none

/-- String form of `monthMatch`. -/
def monthMatchS (s : String) : Option Nat := monthMatch s.data

/-! Python sorting and dict primitives. -/

/-- Lexicographic code-point comparison of character lists; this is how
Python compares strings. -/
def strLeB : List Char → List Char → Bool
  | [], _ => true
  | _ :: _, [] => false
  | a :: as, b :: bs => if a = b then strLeB as bs else decide (a < b)

/-- Python string comparison used by `sorted`. -/
def pyLe (a b : String) : Bool := strLeB a.data b.data

/-- Insert a string into an ascending list. -/
def insertSorted (a : String) : List String → List String
  | [] => [a]
  | b :: bs => if pyLe a b then a :: b :: bs else b :: insertSorted a bs

/-- Python `sorted` on a list of strings.  Insertion sort is extensionally
equal to any correct sort here because `pyLe` is a total, transitive,
antisymmetric order, so the ascending permutation of a list is unique. -/
def pySorted (l : List String) : List String := l.foldr insertSorted []

/-- Python `dict` insertion `d[k] = v`: overwrite the value in place when
the key exists, append otherwise (dicts preserve insertion order). -/
def dictInsert : List (String × Nat) → String → Nat → List (String × Nat)
  | [], k, v => [(k, v)]
  | (k', v') :: rest, k, v =>
    if k' = k then (k', v) :: rest else (k', v') :: dictInsert rest k v

/-- Python `dict` insertion for the year-to-months catalog. -/
def dictInsertYM : List (Nat × List Nat) → Nat → List Nat → List (Nat × List Nat)
  | [], k, v => [(k, v)]
  | (k', v') :: rest, k, v =>
    if k' = k then (k', v) :: rest else (k', v') :: dictInsertYM rest k v

/-- Boolean test that a character list ends with `DATA` (stated on the
reversed list so that it computes structurally). -/
def endsDATA (l : List Char) : Bool := listPrefixB ['A', 'T', 'A', 'D'] l.reverse

/-- Join slash-free segments with `/` separators; used to decompose a
constructed archive URL when reasoning about occurrences of `DATA/`. -/
def segsJoin : List (List Char) → List Char
  | [] => []
  | [a] => a
  | a :: b :: rest => a ++ '/' :: segsJoin (b :: rest)

/-! The environment and effect model. -/

/-- Abstract remote environment: everything the library can observe over
HTTP.  `pages url` is the list of anchor hrefs at a directory listing;
`sizes url` the HEAD-reported content length; `zipEntries url` the
namelist of the archive served at `url`; `zipCorrupt url` whether that
archive fails its integrity check during extraction (raising
`BadZipFile`); `httpOk url` whether the streaming GET returns a success
status (`raise_for_status` passes). -/
structure Web where
  pages : String → List String
  sizes : String → Nat
  zipEntries : String → List String
  zipCorrupt : String → Bool
  httpOk : String → Bool

/-- Error taxonomy of the library (each constructor stands for one of the
`ValueError` / `HTTPError` messages raised by the source). -/
inductive MmsError where
  /-- "Monthly Data Archive does not have data for month/year". -/
  | unknownPeriod (month year : Nat)
  /-- "data_dir not in Monthly Data Archive for year month". -/
  | unknownSubdir (dataDir : String)
  /-- "Table not in available tables for month/year". -/
  | unknownTable (month year : Nat)
  /-- `requests` `HTTPError` from `raise_for_status` on the streaming GET. -/
  | httpError (url : String)
  /-- "Unexpected contents in zipfile from url". -/
  | unexpectedContents (url : String)
deriving Repr, DecidableEq

/-- Filesystem effects of `get_and_unzip_table_csv` on the destination
directory, in program order. -/
inductive FsEvent where
  /-- The destination directory was ensured to exist (`mkdir` if absent). -/
  | ensuredCacheDir
  /-- The streamed archive was written to this file name. -/
  | writeFile (name : String)
  /-- `extractall` completed and produced this entry. -/
  | extracted (name : String)
  /-- `BadZipFile` was caught and `logger.error` named this entry as
  invalid or corrupted (the model records no file for a failed
  extraction). -/
  | loggedCorrupt (name : String)
  /-- `Path.unlink` removed this file. -/
  | deleted (name : String)
deriving Repr, DecidableEq

/-- Effect of one event on the set of file names present in the
destination directory. -/
def applyEvent (fs : List String) : FsEvent → List String
  | .ensuredCacheDir => fs
  | .writeFile n => if n ∈ fs then fs else fs ++ [n]
  | .extracted n => if n ∈ fs then fs else fs ++ [n]
  | .loggedCorrupt _ => fs
  | .deleted n => fs.erase n

/-- Files present in the destination directory after a trace, starting
from the files initially present. -/
def applyEvents (fs : List String) (evs : List FsEvent) : List String :=
  evs.foldl applyEvent fs

/-! The library functions, translated from `mms_monthly_cli/mms_monthly.py`.
Python `list(set(xs))` is modelled with `List.dedup`; a Python `set`
iterates in an unspecified (hash-based) order, and every consumer of a
deduplicated list in this library either sorts it or folds it into a
dict, so the particular order `dedup` picks is immaterial. -/

/-- Wholesale electricity data archive base URL. -/
def MMSDM_ARCHIVE_URL : String :=
  "https://www.nemweb.com.au/Data_Archive/Wholesale_Electricity/MMSDM/"

/-- Filename without file type:
`PUBLIC_DVD_{table}_{year}{month:02}010000`.  (The local Python variable
holding `"PUBLIC_DVD_" + table` is called `prefix`; that is not a legal
Lean identifier, hence `fnPre`.) -/
def _construct_filename (year month : Nat) (table : String) : String :=
  let stryear := strNat year
  let strmonth := rjust2 (strNat month)
  let fnPre := "PUBLIC_DVD_" ++ table
  fnPre ++ "_" ++ stryear ++ strmonth ++ "010000"

/-- URL of a year-month listing, with an optional directory inside the
monthly archive appended. -/
def _construct_yearmonth_url (year month : Nat) (data_dir : Option String) :
    String :=
  let url := MMSDM_ARCHIVE_URL ++ strNat year ++ "/MMSDM_" ++ strNat year
    ++ "_" ++ rjust2 (strNat month) ++ "/MMSDM_Historical_Data_SQLLoader/"
  match data_dir with
  | some d => url ++ d ++ "/"
  | none => url

/-- URL pointing to one MMSDM Historical Data Archive zip file. -/
def _construct_table_url (year month : Nat) (data_dir table : String) :
    String :=
  let data_url := _construct_yearmonth_url year month (some data_dir)
  let fn := _construct_filename year month table
  data_url ++ fn ++ ".zip"

/-- Size of the zip a URL points to, per its HEAD `Content-Length`. -/
def _get_filesize (url : String) (w : Web) : Nat := w.sizes url

/-- Inner helper of `get_years_and_months`: unique months scraped from
links with a `YYYY_MM` shape on one year index page. -/
def _get_months (url : String) (w : Web) : List Nat :=
  ((w.pages url).filterMap monthMatchS).dedup

/-- Years and months with data on the archive: for every root link
carrying a four-digit year, scrape that year's index page for months.
The Python `dict` accumulation is modelled with overwrite-in-place
insertion, so later links with the same year overwrite earlier ones
(with an identical month list, since it is recomputed from the same
page). -/
def get_years_and_months (w : Web) : List (Nat × List Nat) :=
  (w.pages MMSDM_ARCHIVE_URL).foldl
    (fun yearmonths link =>
      match yearMatchS link with
      | some year =>
        dictInsertYM yearmonths year
          (_get_months (MMSDM_ARCHIVE_URL ++ strNat year ++ "/") w)
      | none => yearmonths)
    []

/-- The membership test of `_get_all_links_from_soup`:
`year in catalog.keys() and month in catalog[year]`.  Keys of the
accumulated dict are unique, so the first matching entry is the entry. -/
def periodAvailable (w : Web) (year month : Nat) : Bool :=
  match (get_years_and_months w).find? (fun p => p.1 == year) with
  | some p => p.2.contains month
  | none => false

/-- All links scraped from the year-month (and optional subdirectory)
listing; fails when the catalog has no data for the requested period. -/
def _get_all_links_from_soup (year month : Nat) (data_dir : Option String)
    (w : Web) : Except MmsError (List String) :=
  if periodAvailable w year month then
    .ok (w.pages (_construct_yearmonth_url year month data_dir))
  else
    .error (.unknownPeriod month year)

/-- Table names extracted from the listing links through a regex with one
capture group (passed as the matcher `rmatch`, as the source passes the
pattern string), with a leading underscore stripped, deduplicated. -/
def _get_table_names (year month : Nat) (data_dir : String)
    (rmatch : String → Option String) (w : Web) :
    Except MmsError (List String) :=
  match _get_all_links_from_soup year month (some data_dir) w with
  | .error e => .error e
  | .ok links =>
    .ok ((links.filterMap (fun link => (rmatch link).map lstripUnderscore)).dedup)

/-- Validates a user `data_dir` against the final path components of the
links actually present at the year-month listing. -/
def _validate_data_dir (year month : Nat) (data_dir : String) (w : Web) :
    Except MmsError Unit :=
  match _get_all_links_from_soup year month none w with
  | .error e => .error e
  | .ok links =>
    if data_dir ∈ links.map pathName then .ok ()
    else .error (.unknownSubdir data_dir)

/-- Tables that can be requested for a particular month and year:
validate the directory, extract table names, return them sorted. -/
def get_available_tables (year month : Nat) (data_dir : String) (w : Web) :
    Except MmsError (List String) :=
  match _validate_data_dir year month data_dir w with
  | .error e => .error e
  | .ok _ =>
    match _get_table_names year month data_dir matchTableGroupS w with
    | .error e => .error e
    | .ok names => .ok (pySorted names)

/-- Table names and zip sizes scraped from the listing: one HEAD request
per matching link, tuples deduplicated through a set, then folded into a
dict (the source performs no `data_dir` validation here). -/
def get_table_names_and_sizes (year month : Nat) (data_dir : String)
    (w : Web) : Except MmsError (List (String × Nat)) :=
  match _get_all_links_from_soup year month (some data_dir) w with
  | .error e => .error e
  | .ok links =>
    let names_and_sizes := links.filterMap (fun link =>
      (matchTableGroupS link).map (fun g =>
        let name := lstripUnderscore g
        (name, _get_filesize (_construct_table_url year month data_dir name) w)))
    .ok ((names_and_sizes.dedup).foldl (fun d p => dictInsert d p.1 p.2) [])

/-- The zip-content condition checked before extraction, for a single
entry: both regex matches succeed and their groups coincide
(`fn.group(1) == zfn.group(1)`). -/
def zipCheck (url entry : String) : Bool :=
  match matchDataZipGroupS url, matchCsvGroupS entry with
  | some zstem, some fstem => fstem == zstem
  | _, _ => false

/-- The full validation guard of `get_and_unzip_table_csv`: the namelist
has exactly one entry and `zipCheck` accepts it. -/
def zipContentsOk (w : Web) (url : String) : Bool :=
  match w.zipEntries url with
  | [entry] => zipCheck url entry
  | _ => false

/-- Download-and-extract routine.  Mirrors the source order: validate the
table against `get_available_tables` (which itself validates period and
directory), ensure the destination directory exists, stream the archive
to a file named after the URL's final path segment (aborting before the
write when the GET status is not a success), open the zip, check its
contents, extract, and unlink the archive.  A `BadZipFile` raised by
`extractall` is caught and logged, after which control falls through to
the unconditional `unlink`, so the function still returns success and
still deletes the archive.  Returns the result together with the trace
of filesystem effects on the destination directory. -/
def get_and_unzip_table_csv (year month : Nat) (data_dir table : String)
    (w : Web) : Except MmsError Unit × List FsEvent :=
  match get_available_tables year month data_dir w with
  | .error e => (.error e, [])
  | .ok available_tables =>
    if table ∈ available_tables then
      let url := _construct_table_url year month data_dir table
      let file_name := pathName url
      if w.httpOk url then
        let csvfn := w.zipEntries url
        if zipContentsOk w url then
          if w.zipCorrupt url then
            (.ok (), [.ensuredCacheDir, .writeFile file_name,
                      .loggedCorrupt (csvfn.getLast?.getD ""),
                      .deleted file_name])
          else
            (.ok (), [.ensuredCacheDir, .writeFile file_name,
                      .extracted (csvfn.getLast?.getD ""),
                      .deleted file_name])
        else
          (.error (.unexpectedContents url),
           [.ensuredCacheDir, .writeFile file_name])
      else
        (.error (.httpError url), [.ensuredCacheDir])
    else
      (.error (.unknownTable month year), [])

/-! Definitions written from the specification's words (not from the
source), used only to compare the spec's description of the zip-content
validation with the code's actual regex check. -/

/-- Modelled from the spec: a file name "case-insensitively stripped of a
trailing `.csv` extension" (the name unchanged when it does not end with
`.csv` in some casing). -/
def spec_strip_csv (name : String) : String :=
  match name.data.reverse with
  | v :: s :: c :: dot :: _ =>
    if (v == 'v' || v == 'V') && (s == 's' || s == 'S')
        && (c == 'c' || c == 'C') && dot == '.' then
      ⟨name.data.take (name.data.length - 4)⟩
    else name
  | _ => name

/-- Modelled from the spec: "the archive URL's base name (the zip's own
stem)" — the final path component with its `.zip` extension removed. -/
def spec_zip_stem (url : String) : String :=
  match (pathName url).data.reverse with
  | p :: i :: z :: dot :: _ =>
    if (p == 'p' || p == 'P') && (i == 'i' || i == 'I')
        && (z == 'z' || z == 'Z') && dot == '.' then
      ⟨(pathName url).data.take ((pathName url).data.length - 4)⟩
    else pathName url
  | _ => pathName url

/-- Modelled from the spec: case-insensitive equality of two names
(ASCII letters compared ignoring case), used to state the spec's
"case-insensitive match acceptable" for the extracted CSV's name. -/
def charCIEq (a b : Char) : Bool :=
  a == b || (('A' ≤ a && a ≤ 'Z') && a.toNat + 32 == b.toNat)
    || (('A' ≤ b && b ≤ 'Z') && b.toNat + 32 == a.toNat)

/-- Case-insensitive string equality built from `charCIEq`. -/
def ciEq (a b : String) : Bool :=
  a.data.length == b.data.length
    && (List.zipWith charCIEq a.data b.data).all id

/-! Concrete environments used as witnesses and counterexamples.  All of
them present a catalog with the single period 2022-01 and a `DATA`
subdirectory holding two tables. -/

/-- A well-behaved environment: the archive for `DISPATCHREGIONSUM`
2022-01 contains the single entry
`PUBLIC_DVD_DISPATCHREGIONSUM_202201010000.CSV`; the archive for
`DISPATCHPRICE` is served empty (no entries). -/
def wGood : Web where
  pages u :=
    if u = MMSDM_ARCHIVE_URL then ["2022/"]
    else if u = MMSDM_ARCHIVE_URL ++ "2022/" then ["MMSDM_2022_01"]
    else if u = _construct_yearmonth_url 2022 1 none then ["DATA/"]
    else if u = _construct_yearmonth_url 2022 1 (some "DATA") then
      ["/2022/MMSDM_2022_01/MMSDM_Historical_Data_SQLLoader/DATA/PUBLIC_DVD_DISPATCHPRICE_202201010000.zip",
       "/2022/MMSDM_2022_01/MMSDM_Historical_Data_SQLLoader/DATA/PUBLIC_DVD_DISPATCHREGIONSUM_202201010000.zip"]
    else []
  sizes _ := 100
  zipEntries u :=
    if u = _construct_table_url 2022 1 "DATA" "DISPATCHREGIONSUM" then
      ["PUBLIC_DVD_DISPATCHREGIONSUM_202201010000.CSV"]
    else []
  zipCorrupt _ := false
  httpOk _ := true

/-- Like `wGood`, but the `DISPATCHREGIONSUM` archive holds a single
entry named `PUBLIC_DVD_DISPATCHREGIONSUM_202201010000XCSVX` — a name
that is not the stem plus a `.CSV` extension, yet is accepted by the
code's unescaped-dot, unanchored regex check. -/
def wX : Web where
  pages := wGood.pages
  sizes _ := 100
  zipEntries u :=
    if u = _construct_table_url 2022 1 "DATA" "DISPATCHREGIONSUM" then
      ["PUBLIC_DVD_DISPATCHREGIONSUM_202201010000XCSVX"]
    else []
  zipCorrupt _ := false
  httpOk _ := true

/-- Like `wGood`, but every archive fails its integrity check during
extraction (`extractall` raises `BadZipFile`). -/
def wCorrupt : Web where
  pages := wGood.pages
  sizes _ := 100
  zipEntries := wGood.zipEntries
  zipCorrupt _ := true
  httpOk _ := true

/-- An environment whose 2022-01 listing offers a subdirectory `FOO`
(not ending in `DATA`) containing a correctly named single-entry archive
for `DISPATCHREGIONSUM`. -/
def wFoo : Web where
  pages u :=
    if u = MMSDM_ARCHIVE_URL then ["2022/"]
    else if u = MMSDM_ARCHIVE_URL ++ "2022/" then ["MMSDM_2022_01"]
    else if u = _construct_yearmonth_url 2022 1 none then ["DATA/", "FOO/"]
    else if u = _construct_yearmonth_url 2022 1 (some "FOO") then
      ["/2022/MMSDM_2022_01/MMSDM_Historical_Data_SQLLoader/FOO/PUBLIC_DVD_DISPATCHREGIONSUM_202201010000.zip"]
    else []
  sizes _ := 100
  zipEntries u :=
    if u = _construct_table_url 2022 1 "FOO" "DISPATCHREGIONSUM" then
      ["PUBLIC_DVD_DISPATCHREGIONSUM_202201010000.CSV"]
    else []
  zipCorrupt _ := false
  httpOk _ := true

/-! General lemmas about the string and regex primitives. -/

theorem listPrefixB_subset (p s : List Char) (h : listPrefixB p s = true) :
    ∀ x ∈ p, x ∈ s := by
  induction p generalizing s with
  | nil => simp
  | cons a as ih =>
    cases s with
    | nil => simp [listPrefixB] at h
    | cons b bs =>
      simp only [listPrefixB, Bool.and_eq_true, beq_iff_eq] at h
      obtain ⟨hab, h2⟩ := h
      subst hab
      intro x hx
      rcases List.mem_cons.mp hx with rfl | hx
      · exact List.mem_cons_self _ _
      · exact List.mem_cons_of_mem _ (ih bs h2 x hx)

theorem listPrefixB_append_right (p s t : List Char)
    (h : listPrefixB p s = true) : listPrefixB p (s ++ t) = true := by
  induction p generalizing s with
  | nil => rfl
  | cons a as ih =>
    cases s with
    | nil => simp [listPrefixB] at h
    | cons b bs =>
      simp only [listPrefixB, Bool.and_eq_true] at h
      simp only [List.cons_append, listPrefixB, Bool.and_eq_true]
      exact ⟨h.1, ih bs h.2⟩

theorem strAt_false_of_hasSub_false (p s : List Char) (hp : p ≠ [])
    (h : hasSub p s = false) : ∀ i, strAt p s i = false := by
  induction s with
  | nil =>
    intro i
    cases p with
    | nil => exact absurd rfl hp
    | cons a as => simp [strAt, listPrefixB]
  | cons c rest ih =>
    intro i
    simp only [hasSub, Bool.or_eq_false_iff] at h
    cases i with
    | zero => exact h.1
    | succ j => exact ih h.2 j

theorem hasSub_dataSlash_of_no_slash (s : List Char) (h : ('/' : Char) ∉ s) :
    hasSub dataSlash s = false := by
  induction s with
  | nil => rfl
  | cons c rest ih =>
    simp only [hasSub, Bool.or_eq_false_iff]
    refine ⟨?_, ih (fun hm => h (List.mem_cons_of_mem c hm))⟩
    by_cases hp : listPrefixB dataSlash (c :: rest) = true
    · exact absurd (listPrefixB_subset _ _ hp '/' (by simp [dataSlash])) h
    · simpa using hp

theorem endsDATA_cons (c : Char) (l : List Char) (h : endsDATA l = true) :
    endsDATA (c :: l) = true := by
  unfold endsDATA at h ⊢
  rw [List.reverse_cons]
  exact listPrefixB_append_right _ _ _ h

theorem hasSub_seg_step (a rest : List Char) (hs : ('/' : Char) ∉ a)
    (hd : endsDATA a = false) :
    hasSub dataSlash (a ++ '/' :: rest) = hasSub dataSlash rest := by
  revert hs hd
  induction a with
  | nil =>
    intro hs hd
    show (listPrefixB dataSlash ('/' :: rest) || hasSub dataSlash rest)
        = hasSub dataSlash rest
    rw [show listPrefixB dataSlash ('/' :: rest) = false from rfl]
    simp
  | cons c a' ih =>
    intro hs hd
    have hs' : ('/' : Char) ∉ a' := fun hm => hs (List.mem_cons_of_mem c hm)
    have hd' : endsDATA a' = false := by
      by_cases h : endsDATA a' = true
      · exact absurd (endsDATA_cons c a' h) (by simp [hd])
      · simpa using h
    have h2 : hasSub dataSlash (a' ++ '/' :: rest) = hasSub dataSlash rest :=
      ih hs' hd'
    have h1 : listPrefixB dataSlash (c :: (a' ++ '/' :: rest)) = false := by
      rcases a' with _ | ⟨x, _ | ⟨y, _ | ⟨z, _ | ⟨w, r⟩⟩⟩⟩
      · show (('D' == c) && (('A' == '/') && listPrefixB ['T', 'A', '/'] rest))
            = false
        rw [show ('A' == '/') = false from rfl]
        simp
      · show (('D' == c) && (('A' == x) && (('T' == '/')
            && listPrefixB ['A', '/'] rest))) = false
        rw [show ('T' == '/') = false from rfl]
        simp
      · show (('D' == c) && (('A' == x) && (('T' == y) && (('A' == '/')
            && listPrefixB ['/'] rest)))) = false
        rw [show ('A' == '/') = false from rfl]
        simp
      · show (('D' == c) && (('A' == x) && (('T' == y) && (('A' == z)
            && (('/' == '/') && listPrefixB [] rest))))) = false
        by_cases hset : c = 'D' ∧ x = 'A' ∧ y = 'T' ∧ z = 'A'
        · obtain ⟨rfl, rfl, rfl, rfl⟩ := hset
          exact absurd hd (by decide)
        · simp only [listPrefixB, Bool.and_eq_false_iff, beq_eq_false_iff_ne,
            ne_eq]
          by_contra hcon
          push_neg at hcon
          exact hset ⟨hcon.1.symm, hcon.2.1.symm, hcon.2.2.1.symm,
            hcon.2.2.2.1.symm⟩
      · show (('D' == c) && (('A' == x) && (('T' == y) && (('A' == z)
            && (('/' == w) && listPrefixB [] (r ++ '/' :: rest)))))) = false
        by_cases hw : w = '/'
        · subst hw
          exact absurd (by simp : ('/' : Char) ∈ c :: x :: y :: z :: '/' :: r) hs
        · rw [show ('/' == w) = false from by simp [Ne.symm hw]]
          simp
    show (listPrefixB dataSlash (c :: (a' ++ '/' :: rest))
        || hasSub dataSlash (a' ++ '/' :: rest)) = hasSub dataSlash rest
    rw [h1, h2]
    simp

theorem hasSub_segsJoin_false (segs : List (List Char))
    (h1 : ∀ a ∈ segs, ('/' : Char) ∉ a)
    (h2 : ∀ a ∈ segs.dropLast, endsDATA a = false) :
    hasSub dataSlash (segsJoin segs) = false := by
  induction segs with
  | nil => rfl
  | cons a rest ih =>
    cases rest with
    | nil =>
      exact hasSub_dataSlash_of_no_slash a (h1 a (List.mem_cons_self a []))
    | cons b rest2 =>
      show hasSub dataSlash (a ++ '/' :: segsJoin (b :: rest2)) = false
      rw [hasSub_seg_step a _ (h1 a (List.mem_cons_self _ _))
        (h2 a (by simp [List.dropLast]))]
      refine ih (fun x hx => h1 x (List.mem_cons_of_mem a hx)) ?_
      intro x hx
      refine h2 x ?_
      simp only [List.dropLast] at hx ⊢
      exact List.mem_cons_of_mem a hx

theorem mem_natDigitsAux_isDigit (fuel n : Nat) :
    ∀ c ∈ natDigitsAux fuel n, c.isDigit = true := by
  induction fuel generalizing n with
  | zero => simp [natDigitsAux]
  | succ fuel ih =>
    intro c hc
    unfold natDigitsAux at hc
    by_cases h : n < 10
    · rw [if_pos h] at hc
      simp only [List.mem_singleton] at hc
      subst hc
      interval_cases n <;> decide
    · rw [if_neg h] at hc
      rcases List.mem_append.mp hc with hc | hc
      · exact ih (n / 10) c hc
      · simp only [List.mem_singleton] at hc
        subst hc
        have hlt : n % 10 < 10 := Nat.mod_lt n (by omega)
        interval_cases hh : n % 10 <;> decide

theorem mem_natDigits_isDigit (n : Nat) :
    ∀ c ∈ natDigits n, c.isDigit = true :=
  mem_natDigitsAux_isDigit (n + 1) n

theorem natDigits_ne_nil (n : Nat) : natDigits n ≠ [] := by
  unfold natDigits natDigitsAux
  by_cases h : n < 10 <;> simp [h]

theorem isDigit_ne_slash (c : Char) (h : c.isDigit = true) : c ≠ '/' := by
  intro hc
  subst hc
  simp [Char.isDigit] at h

theorem isDigit_ne_A (c : Char) (h : c.isDigit = true) : c ≠ 'A' := by
  intro hc
  subst hc
  simp [Char.isDigit] at h

theorem endsDATA_append_digits (x l : List Char) (hne : l ≠ [])
    (hdig : ∀ c ∈ l, c.isDigit = true) : endsDATA (x ++ l) = false := by
  obtain ⟨c, r, hrev⟩ := List.exists_cons_of_ne_nil
    (fun h : l.reverse = [] => hne (by simpa using h))
  have hcl : c ∈ l := by
    have hm : c ∈ l.reverse := hrev ▸ List.mem_cons_self c r
    simpa using hm
  unfold endsDATA
  rw [List.reverse_append, hrev]
  show (('A' == c) && listPrefixB ['T', 'A', 'D'] (r ++ x.reverse)) = false
  rw [show ('A' == c) = false from by
    simp [Ne.symm (isDigit_ne_A c (hdig c hcl))]]
  simp

theorem endsDATA_digits (l : List Char) (hne : l ≠ [])
    (hdig : ∀ c ∈ l, c.isDigit = true) : endsDATA l = false := by
  have h := endsDATA_append_digits [] l hne hdig
  simpa using h

theorem mem_rjust2_strNat_isDigit (m : Nat) :
    ∀ c ∈ (rjust2 (strNat m)).data, c.isDigit = true := by
  intro c hc
  unfold rjust2 strNat at hc
  by_cases h : (String.mk (natDigits m)).length ≥ 2
  · rw [if_pos h] at hc
    exact mem_natDigits_isDigit m c hc
  · rw [if_neg h] at hc
    rw [String.data_append] at hc
    rcases List.mem_append.mp hc with hc | hc
    · have h0 := List.eq_of_mem_replicate (by simpa using hc)
      subst h0
      decide
    · exact mem_natDigits_isDigit m c hc

theorem rjust2_strNat_ne_nil (m : Nat) : (rjust2 (strNat m)).data ≠ [] := by
  unfold rjust2 strNat
  by_cases h : (String.mk (natDigits m)).length ≥ 2
  · rw [if_pos h]
    exact natDigits_ne_nil m
  · rw [if_neg h]
    rw [String.data_append]
    intro hcon
    exact natDigits_ne_nil m (List.append_eq_nil.mp hcon).2

/-! Decomposition of a constructed table URL into slash-free segments,
and the consequences for the `.*DATA/(.*).zip` match. -/

theorem url_segs (year month : Nat) (data_dir table : String) :
    (_construct_table_url year month data_dir table).data =
      segsJoin ["https:".data, [], "www.nemweb.com.au".data,
        "Data_Archive".data, "Wholesale_Electricity".data, "MMSDM".data,
        natDigits year,
        "MMSDM_".data ++ natDigits year ++ '_' :: (rjust2 (strNat month)).data,
        "MMSDM_Historical_Data_SQLLoader".data, data_dir.data,
        "PUBLIC_DVD_".data ++ table.data
          ++ '_' :: (natDigits year ++ (rjust2 (strNat month)).data
            ++ "010000.zip".data)] := by
  have hbase : MMSDM_ARCHIVE_URL.data =
      "https:".data ++ '/' :: ([] ++ '/' :: ("www.nemweb.com.au".data
        ++ '/' :: ("Data_Archive".data ++ '/' :: ("Wholesale_Electricity".data
        ++ '/' :: ("MMSDM".data ++ ['/']))))) := rfl
  simp only [segsJoin, _construct_table_url, _construct_yearmonth_url,
    _construct_filename, String.data_append, hbase, strNat]
  simp only [List.append_assoc, List.cons_append, List.nil_append,
    List.singleton_append]

theorem hasSub_url_false (year month : Nat) (data_dir table : String)
    (hd1 : ('/' : Char) ∉ data_dir.data) (hd2 : endsDATA data_dir.data = false)
    (ht : ('/' : Char) ∉ table.data) :
    hasSub dataSlash (_construct_table_url year month data_dir table).data
      = false := by
  rw [url_segs]
  apply hasSub_segsJoin_false
  · intro a ha
    simp only [List.mem_cons, List.not_mem_nil, or_false] at ha
    rcases ha with rfl | rfl | rfl | rfl | rfl | rfl | rfl | rfl | rfl | rfl | rfl
    · decide
    · decide
    · decide
    · decide
    · decide
    · decide
    · intro hm
      exact isDigit_ne_slash '/' (mem_natDigits_isDigit year '/' hm) rfl
    · intro hm
      rcases List.mem_append.mp hm with hm | hm
      · rcases List.mem_append.mp hm with hm | hm
        · revert hm; decide
        · exact isDigit_ne_slash '/' (mem_natDigits_isDigit year '/' hm) rfl
      · rcases List.mem_cons.mp hm with hm | hm
        · exact absurd hm.symm (by decide)
        · exact isDigit_ne_slash '/' (mem_rjust2_strNat_isDigit month '/' hm) rfl
    · decide
    · exact hd1
    · intro hm
      rcases List.mem_append.mp hm with hm | hm
      · rcases List.mem_append.mp hm with hm | hm
        · revert hm; decide
        · exact ht hm
      · rcases List.mem_cons.mp hm with hm | hm
        · exact absurd hm.symm (by decide)
        · rcases List.mem_append.mp hm with hm | hm
          · rcases List.mem_append.mp hm with hm | hm
            · exact isDigit_ne_slash '/' (mem_natDigits_isDigit year '/' hm) rfl
            · exact isDigit_ne_slash '/'
                (mem_rjust2_strNat_isDigit month '/' hm) rfl
          · revert hm; decide
  · intro a ha
    simp only [List.dropLast, List.mem_cons, List.not_mem_nil, or_false] at ha
    rcases ha with rfl | rfl | rfl | rfl | rfl | rfl | rfl | rfl | rfl | rfl
    · decide
    · decide
    · decide
    · decide
    · decide
    · decide
    · exact endsDATA_digits (natDigits year) (natDigits_ne_nil year)
        (mem_natDigits_isDigit year)
    · rw [show "MMSDM_".data ++ natDigits year
          ++ '_' :: (rjust2 (strNat month)).data
        = ("MMSDM_".data ++ natDigits year ++ ['_'])
          ++ (rjust2 (strNat month)).data from by simp]
      exact endsDATA_append_digits _ _ (rjust2_strNat_ne_nil month)
        (mem_rjust2_strNat_isDigit month)
    · decide
    · exact hd2

theorem matchDataZipGroupS_eq_none (url : String)
    (h : hasSub dataSlash url.data = false) :
    matchDataZipGroupS url = none := by
  have hstr := strAt_false_of_hasSub_false dataSlash url.data (by decide) h
  unfold matchDataZipGroupS matchDataZipGroup
  have hnone : lastIdxWhere
      (fun i => strAt dataSlash url.data i && (zipAfter url.data i).isSome)
      url.data.length = none := by
    unfold lastIdxWhere
    rw [List.filter_eq_nil_iff.mpr ?_]
    · rfl
    · intro i _
      simp [hstr i]
  rw [hnone]
  rfl

theorem zipContentsOk_of_none (w : Web) (url : String)
    (h : matchDataZipGroupS url = none) : zipContentsOk w url = false := by
  unfold zipContentsOk
  cases w.zipEntries url with
  | nil => rfl
  | cons e rest =>
    cases rest with
    | nil =>
      show zipCheck url e = false
      unfold zipCheck
      rw [h]
    | cons f r => rfl

/-! Lemmas locating the capture-group characters of the table regex and
the slash-freeness of validated directory and table names. -/

theorem lastIdxWhere_spec (p : Nat → Bool) (n v : Nat)
    (h : lastIdxWhere p n = some v) : v < n ∧ p v = true := by
  unfold lastIdxWhere at h
  have hmem := List.mem_of_mem_getLast? h
  have hm := List.mem_filter.mp hmem
  exact ⟨List.mem_range.mp hm.1, hm.2⟩

theorem runLen_take (p : Char → Bool) (l : List Char) (n : Nat)
    (hn : n ≤ runLen p l) : ∀ c ∈ l.take n, p c = true := by
  induction l generalizing n with
  | nil => simp
  | cons a as ih =>
    cases n with
    | zero => simp
    | succ k =>
      unfold runLen at hn
      by_cases hp : p a
      · rw [if_pos hp] at hn
        intro c hc
        rcases List.mem_cons.mp (by simpa using hc) with rfl | hc'
        · exact hp
        · exact ih k (by omega) c hc'
      · rw [if_neg hp] at hn
        omega

theorem matchTableGroup_chars (s g : List Char)
    (h : matchTableGroup s = some g) : ∀ c ∈ g, isTableChar c = true := by
  unfold matchTableGroup at h
  cases hi : lastIdxWhere
      (fun i => strAt pubPat s i && (tableNAt s (i + 12)).isSome) s.length with
  | none => rw [hi] at h; simp at h
  | some i =>
    rw [hi] at h
    have h2 : (match tableNAt s (i + 12) with
        | some n => some ((s.drop (i + 12)).take n)
        | none => none) = some g := h
    cases hn : tableNAt s (i + 12) with
    | none => rw [hn] at h2; simp at h2
    | some n =>
      rw [hn] at h2
      simp only [Option.some.injEq] at h2
      subst h2
      have hspec := lastIdxWhere_spec _ _ _ hn
      exact runLen_take _ _ n (by omega)

theorem isTableChar_ne_slash (c : Char) (h : isTableChar c = true) :
    c ≠ '/' := by
  intro hc
  subst hc
  exact absurd h (by decide)

theorem splitSlash_no_slash (s : List Char) :
    ∀ seg ∈ splitSlash s, ('/' : Char) ∉ seg := by
  induction s with
  | nil =>
    intro seg hseg
    simp only [splitSlash, List.mem_singleton] at hseg
    subst hseg
    simp
  | cons c rest ih =>
    intro seg hseg
    unfold splitSlash at hseg
    by_cases hc : c = '/'
    · rw [if_pos hc] at hseg
      rcases List.mem_cons.mp hseg with rfl | hseg
      · simp
      · exact ih seg hseg
    · rw [if_neg hc] at hseg
      cases hsp : splitSlash rest with
      | nil =>
        rw [hsp] at hseg
        rcases List.mem_cons.mp hseg with rfl | hseg
        · intro hm
          rcases List.mem_cons.mp hm with h | h
          · exact hc h.symm
          · simp at h
        · simp at hseg
      | cons s0 segs =>
        rw [hsp] at hseg
        rcases List.mem_cons.mp hseg with rfl | hseg
        · intro hm
          rcases List.mem_cons.mp hm with h | h
          · exact hc h.symm
          · exact ih s0 (hsp ▸ List.mem_cons_self _ _) h
        · exact ih seg (hsp ▸ List.mem_cons_of_mem _ hseg)

theorem pathName_no_slash (s : String) : ('/' : Char) ∉ (pathName s).data := by
  unfold pathName
  cases h : ((splitSlash s.data).filter
      (fun seg => !(seg = []) && !(seg = ['.']))).getLast? with
  | none => simp
  | some seg =>
    have hmem := List.mem_of_mem_getLast? h
    have hsp := List.mem_of_mem_filter hmem
    simpa using splitSlash_no_slash s.data seg hsp

theorem tables_ok_validate_ok (year month : Nat) (data_dir : String) (w : Web)
    (tables : List String)
    (hok : get_available_tables year month data_dir w = .ok tables) :
    _validate_data_dir year month data_dir w = .ok () := by
  unfold get_available_tables at hok
  cases hv : _validate_data_dir year month data_dir w with
  | error e => rw [hv] at hok; simp at hok
  | ok u => cases u; rfl

theorem validate_ok_no_slash (year month : Nat) (data_dir : String) (w : Web)
    (h : _validate_data_dir year month data_dir w = .ok ()) :
    ('/' : Char) ∉ data_dir.data := by
  unfold _validate_data_dir at h
  cases hl : _get_all_links_from_soup year month none w with
  | error e => rw [hl] at h; simp at h
  | ok links =>
    rw [hl] at h
    have h2 : (if data_dir ∈ links.map pathName
        then (Except.ok () : Except MmsError Unit)
        else .error (.unknownSubdir data_dir)) = .ok () := h
    by_cases hmem : data_dir ∈ links.map pathName
    · obtain ⟨l, _, rfl⟩ := List.mem_map.mp hmem
      exact pathName_no_slash l
    · rw [if_neg hmem] at h2
      simp at h2

theorem tables_extract (year month : Nat) (data_dir : String) (w : Web)
    (tables : List String)
    (hok : get_available_tables year month data_dir w = .ok tables) :
    ∃ links,
      _get_all_links_from_soup year month (some data_dir) w = .ok links ∧
      tables = pySorted ((links.filterMap
        (fun link => (matchTableGroupS link).map lstripUnderscore)).dedup) := by
  unfold get_available_tables at hok
  cases hv : _validate_data_dir year month data_dir w with
  | error e => rw [hv] at hok; simp at hok
  | ok u =>
    rw [hv] at hok
    unfold _get_table_names at hok
    cases hl : _get_all_links_from_soup year month (some data_dir) w with
    | error e => rw [hl] at hok; simp at hok
    | ok links =>
      rw [hl] at hok
      simp only [Except.ok.injEq] at hok
      exact ⟨links, rfl, hok.symm⟩

/-! The Python sort: ascending, a permutation, hence duplicate-free on
deduplicated input. -/

theorem strLeB_total (a b : List Char) : strLeB a b = true ∨ strLeB b a = true := by
  induction a generalizing b with
  | nil => left; rfl
  | cons x xs ih =>
    cases b with
    | nil => right; rfl
    | cons y ys =>
      by_cases hxy : x = y
      · subst hxy
        simpa [strLeB] using ih ys
      · rcases lt_or_gt_of_ne hxy with h | h
        · left; simp [strLeB, hxy, h]
        · right
          simp [strLeB, Ne.symm hxy, h]

theorem strLeB_trans (a b c : List Char) (hab : strLeB a b = true)
    (hbc : strLeB b c = true) : strLeB a c = true := by
  induction a generalizing b c with
  | nil => rfl
  | cons x xs ih =>
    cases b with
    | nil => simp [strLeB] at hab
    | cons y ys =>
      cases c with
      | nil => simp [strLeB] at hbc
      | cons z zs =>
        by_cases hxy : x = y <;> by_cases hyz : y = z
        · subst hxy; subst hyz
          simp [strLeB] at hab hbc ⊢
          exact ih ys zs hab hbc
        · subst hxy
          simp [strLeB, hyz] at hbc ⊢
          simp [hyz, hbc]
        · subst hyz
          simp [strLeB, hxy] at hab ⊢
          simp [hxy, hab]
        · simp [strLeB, hxy] at hab
          simp [strLeB, hyz] at hbc
          have hxz : x < z := lt_trans hab hbc
          simp [strLeB, ne_of_lt hxz, hxz]

theorem pyLe_total (a b : String) : pyLe a b = true ∨ pyLe b a = true :=
  strLeB_total a.data b.data

theorem pyLe_trans (a b c : String) (hab : pyLe a b = true)
    (hbc : pyLe b c = true) : pyLe a c = true :=
  strLeB_trans a.data b.data c.data hab hbc

theorem insertSorted_perm (a : String) (l : List String) :
    (insertSorted a l).Perm (a :: l) := by
  induction l with
  | nil => rfl
  | cons b bs ih =>
    by_cases h : pyLe a b = true
    · simp [insertSorted, h]
    · simp only [insertSorted, h, Bool.false_eq_true, ite_false]
      exact (ih.cons b).trans (List.Perm.swap a b bs)

theorem insertSorted_pairwise (a : String) (l : List String)
    (h : l.Pairwise (fun x y => pyLe x y = true)) :
    (insertSorted a l).Pairwise (fun x y => pyLe x y = true) := by
  induction l with
  | nil => simp [insertSorted]
  | cons b bs ih =>
    rcases List.pairwise_cons.mp h with ⟨hb, hbs⟩
    by_cases hab : pyLe a b = true
    · simp only [insertSorted, hab, ite_true]
      refine List.pairwise_cons.mpr ⟨?_, h⟩
      intro x hx
      rcases List.mem_cons.mp hx with rfl | hx
      · exact hab
      · exact pyLe_trans a b x hab (hb x hx)
    · simp only [insertSorted, hab, Bool.false_eq_true, ite_false]
      refine List.pairwise_cons.mpr ⟨?_, ih hbs⟩
      intro x hx
      have hx' : x ∈ a :: bs := (insertSorted_perm a bs).mem_iff.mp hx
      rcases List.mem_cons.mp hx' with rfl | hx'
      · rcases pyLe_total x b with h' | h'
        · exact absurd h' hab
        · exact h'
      · exact hb x hx'

theorem pySorted_perm (l : List String) : (pySorted l).Perm l := by
  induction l with
  | nil => rfl
  | cons a as ih =>
    exact (insertSorted_perm a (pySorted as)).trans (ih.cons a)

theorem pySorted_pairwise (l : List String) :
    (pySorted l).Pairwise (fun x y => pyLe x y = true) := by
  induction l with
  | nil => simp [pySorted]
  | cons a as ih => exact insertSorted_pairwise a (pySorted as) ih

theorem mem_tables_no_slash (year month : Nat) (data_dir table : String)
    (w : Web) (tables : List String)
    (hok : get_available_tables year month data_dir w = .ok tables)
    (ht : table ∈ tables) : ('/' : Char) ∉ table.data := by
  obtain ⟨links, _, htab⟩ := tables_extract year month data_dir w tables hok
  subst htab
  have h1 : table ∈ (links.filterMap
      (fun link => (matchTableGroupS link).map lstripUnderscore)).dedup :=
    (pySorted_perm _).mem_iff.mp ht
  have h2 := List.mem_dedup.mp h1
  obtain ⟨link, _, heq⟩ := List.mem_filterMap.mp h2
  cases hg : matchTableGroupS link with
  | none => rw [hg] at heq; exact Option.noConfusion heq
  | some g =>
    rw [hg] at heq
    simp only [Option.map_some', Option.some.injEq] at heq
    subst heq
    unfold matchTableGroupS at hg
    cases hmg : matchTableGroup link.data with
    | none => rw [hmg] at hg; exact Option.noConfusion hg
    | some l =>
      rw [hmg] at hg
      simp only [Option.map_some', Option.some.injEq] at hg
      subst hg
      intro hmem
      have hsub : ('/' : Char) ∈ l := by
        have hd : (lstripUnderscore ⟨l⟩).data
            = l.dropWhile (fun c => c == '_') := rfl
        rw [hd] at hmem
        exact (List.dropWhile_sublist _).subset hmem
      exact isTableChar_ne_slash '/'
        (matchTableGroup_chars link.data l hmg '/' hsub) rfl

/-! The claims. -/

/-- Claim C1, counterexample.  The claim states that extraction proceeds
only if the single entry's name, case-insensitively stripped of a
trailing `.csv` extension, equals the zip's own stem.  In the environment
`wX` the only entry is `PUBLIC_DVD_DISPATCHREGIONSUM_202201010000XCSVX`,
whose spec-stripped form differs from the stem
`PUBLIC_DVD_DISPATCHREGIONSUM_202201010000` (it has no trailing `.csv` at
all), yet the run succeeds and extracts it: the code's check is the
unanchored regex `(.*).[cC][sS][vV]` with an unescaped dot, which this
name passes. -/
theorem claim_C1_counterexample :
    (get_and_unzip_table_csv 2022 1 "DATA" "DISPATCHREGIONSUM" wX).1
      = .ok () ∧
    wX.zipEntries (_construct_table_url 2022 1 "DATA" "DISPATCHREGIONSUM") =
      ["PUBLIC_DVD_DISPATCHREGIONSUM_202201010000XCSVX"] ∧
    spec_strip_csv "PUBLIC_DVD_DISPATCHREGIONSUM_202201010000XCSVX" ≠
      spec_zip_stem (_construct_table_url 2022 1 "DATA" "DISPATCHREGIONSUM") :=
  ⟨rfl, rfl, by decide⟩

/-- Claim C1, amended.  Extraction proceeds only if the zip holds exactly
one entry accepted by the code's validation `zipContentsOk`: both
`re.match(".*DATA/(.*).zip", url)` and the loose
`re.match("(.*).[cC][sS][vV]", entry)` succeed with equal groups (so the
entry's name is the URL stem followed by one arbitrary character and a
case-insensitive `csv`, with no later `csv` occurrence — not necessarily
a literal `.csv` extension).  When this validation fails after a
successful download, the operation fails with the
"unexpected archive contents" error and the downloaded archive file is
left in place in the destination directory. -/
theorem claim_C1 (year month : Nat) (data_dir table : String) (w : Web) :
    ((get_and_unzip_table_csv year month data_dir table w).1 = .ok () →
      zipContentsOk w (_construct_table_url year month data_dir table)
        = true) ∧
    (∀ tables, get_available_tables year month data_dir w = .ok tables →
      table ∈ tables →
      w.httpOk (_construct_table_url year month data_dir table) = true →
      zipContentsOk w (_construct_table_url year month data_dir table)
        = false →
      ∀ fs,
        (get_and_unzip_table_csv year month data_dir table w).1 =
          .error (.unexpectedContents
            (_construct_table_url year month data_dir table)) ∧
        pathName (_construct_table_url year month data_dir table) ∈
          applyEvents fs
            (get_and_unzip_table_csv year month data_dir table w).2) := by
  constructor
  · intro hok
    unfold get_and_unzip_table_csv at hok
    cases hga : get_available_tables year month data_dir w with
    | error e => rw [hga] at hok; simp at hok
    | ok tables =>
      rw [hga] at hok
      by_cases hmem : table ∈ tables
      · by_cases hhttp :
            w.httpOk (_construct_table_url year month data_dir table) = true
        · by_cases hz : zipContentsOk w
              (_construct_table_url year month data_dir table) = true
          · exact hz
          · simp [hmem, hhttp, hz] at hok
        · simp [hmem, hhttp] at hok
      · simp [hmem] at hok
  · intro tables hga hmem hhttp hz fs
    have hrun : get_and_unzip_table_csv year month data_dir table w =
        (.error (.unexpectedContents
          (_construct_table_url year month data_dir table)),
         [.ensuredCacheDir,
          .writeFile (pathName
            (_construct_table_url year month data_dir table))]) := by
      simp [get_and_unzip_table_csv, hga, hmem, hhttp, hz]
    rw [hrun]
    refine ⟨rfl, ?_⟩
    simp only [applyEvents, List.foldl, applyEvent]
    by_cases hin :
        pathName (_construct_table_url year month data_dir table) ∈ fs <;>
      simp [hin]

/-- Claim C1, witness: in `wGood` the `DISPATCHPRICE` archive is served
with no entries, so validation fails, the run errors with
"unexpected archive contents" and the downloaded archive stays in the
destination directory. -/
theorem claim_C1_witness :
    get_available_tables 2022 1 "DATA" wGood
      = .ok ["DISPATCHPRICE", "DISPATCHREGIONSUM"] ∧
    "DISPATCHPRICE" ∈ ["DISPATCHPRICE", "DISPATCHREGIONSUM"] ∧
    wGood.httpOk (_construct_table_url 2022 1 "DATA" "DISPATCHPRICE")
      = true ∧
    zipContentsOk wGood (_construct_table_url 2022 1 "DATA" "DISPATCHPRICE")
      = false ∧
    ((get_and_unzip_table_csv 2022 1 "DATA" "DISPATCHPRICE" wGood).1 =
      .error (.unexpectedContents
        (_construct_table_url 2022 1 "DATA" "DISPATCHPRICE")) ∧
     pathName (_construct_table_url 2022 1 "DATA" "DISPATCHPRICE") ∈
      applyEvents []
        (get_and_unzip_table_csv 2022 1 "DATA" "DISPATCHPRICE" wGood).2) :=
  ⟨rfl, by decide, rfl, rfl,
    (claim_C1 2022 1 "DATA" "DISPATCHPRICE" wGood).2
      ["DISPATCHPRICE", "DISPATCHREGIONSUM"] rfl (by decide) rfl rfl []⟩

/-- Claim C2 (code bug).  The claim — and the spec — say that on a
corrupt-archive error during extraction the operation reports which
entry is invalid and stops without deleting the downloaded archive.  In
the code, the `except BadZipFile` handler only logs, control falls
through to the unconditional `Path(file_path).unlink()`, the archive is
deleted and the call returns success.  This theorem evaluates the model
at the failing input (a corrupt `DISPATCHREGIONSUM` 2022-01 archive):
the run returns success, the corrupt entry is logged, the archive file
is deleted, and the destination directory no longer holds the archive. -/
theorem claim_C2 :
    (get_and_unzip_table_csv 2022 1 "DATA" "DISPATCHREGIONSUM" wCorrupt).1
      = .ok () ∧
    FsEvent.loggedCorrupt "PUBLIC_DVD_DISPATCHREGIONSUM_202201010000.CSV" ∈
      (get_and_unzip_table_csv 2022 1 "DATA" "DISPATCHREGIONSUM" wCorrupt).2 ∧
    FsEvent.deleted "PUBLIC_DVD_DISPATCHREGIONSUM_202201010000.zip" ∈
      (get_and_unzip_table_csv 2022 1 "DATA" "DISPATCHREGIONSUM" wCorrupt).2 ∧
    "PUBLIC_DVD_DISPATCHREGIONSUM_202201010000.zip" ∉
      applyEvents []
        (get_and_unzip_table_csv 2022 1 "DATA" "DISPATCHREGIONSUM"
          wCorrupt).2 := by
  have hrun : get_and_unzip_table_csv 2022 1 "DATA" "DISPATCHREGIONSUM"
      wCorrupt =
      (.ok (), [.ensuredCacheDir,
        .writeFile "PUBLIC_DVD_DISPATCHREGIONSUM_202201010000.zip",
        .loggedCorrupt "PUBLIC_DVD_DISPATCHREGIONSUM_202201010000.CSV",
        .deleted "PUBLIC_DVD_DISPATCHREGIONSUM_202201010000.zip"]) := rfl
  rw [hrun]
  exact ⟨rfl, by decide, by decide, by decide⟩

/-- Claim C3, counterexample.  The claim states that every successful run
into an empty destination directory leaves exactly one file named
`filenameStem + ".CSV"` (case-insensitive).  In `wX` the run succeeds but
the one remaining file is `PUBLIC_DVD_DISPATCHREGIONSUM_202201010000XCSVX`,
which is not a case-insensitive match of
`PUBLIC_DVD_DISPATCHREGIONSUM_202201010000.CSV`. -/
theorem claim_C3_counterexample :
    (get_and_unzip_table_csv 2022 1 "DATA" "DISPATCHREGIONSUM" wX).1
      = .ok () ∧
    applyEvents []
      (get_and_unzip_table_csv 2022 1 "DATA" "DISPATCHREGIONSUM" wX).2 =
      ["PUBLIC_DVD_DISPATCHREGIONSUM_202201010000XCSVX"] ∧
    ciEq "PUBLIC_DVD_DISPATCHREGIONSUM_202201010000XCSVX"
      (_construct_filename 2022 1 "DISPATCHREGIONSUM" ++ ".CSV") = false := by
  have hrun : get_and_unzip_table_csv 2022 1 "DATA" "DISPATCHREGIONSUM" wX =
      (.ok (), [.ensuredCacheDir,
        .writeFile "PUBLIC_DVD_DISPATCHREGIONSUM_202201010000.zip",
        .extracted "PUBLIC_DVD_DISPATCHREGIONSUM_202201010000XCSVX",
        .deleted "PUBLIC_DVD_DISPATCHREGIONSUM_202201010000.zip"]) := rfl
  rw [hrun]
  exact ⟨rfl, by decide, by decide⟩

/-- Claim C3, amended.  For every run into an initially empty destination
directory that returns success and whose archive was not corrupt, the
downloaded archive file is deleted after extraction and exactly one file
remains: the zip's single validated entry — whose name passes the code's
loose pattern check against the stem but need not literally be
`filenameStem + ".CSV"` (for the real archive's naming,
`stem + ".CSV"`, it is).  A corrupt archive also returns success but
leaves no extracted file, which is why the non-corrupt hypothesis is
needed. -/
theorem claim_C3 (year month : Nat) (data_dir table e : String) (w : Web)
    (hok : (get_and_unzip_table_csv year month data_dir table w).1 = .ok ())
    (hnc : w.zipCorrupt (_construct_table_url year month data_dir table)
      = false)
    (he : w.zipEntries (_construct_table_url year month data_dir table) = [e])
    (hne : e ≠ pathName (_construct_table_url year month data_dir table)) :
    applyEvents []
      (get_and_unzip_table_csv year month data_dir table w).2 = [e] ∧
    pathName (_construct_table_url year month data_dir table) ∉
      applyEvents []
        (get_and_unzip_table_csv year month data_dir table w).2 ∧
    FsEvent.deleted (pathName (_construct_table_url year month data_dir table))
      ∈ (get_and_unzip_table_csv year month data_dir table w).2 := by
  cases hga : get_available_tables year month data_dir w with
  | error err =>
    unfold get_and_unzip_table_csv at hok
    rw [hga] at hok
    simp at hok
  | ok tables =>
    by_cases hmem : table ∈ tables
    · by_cases hhttp :
          w.httpOk (_construct_table_url year month data_dir table) = true
      · by_cases hz : zipContentsOk w
            (_construct_table_url year month data_dir table) = true
        · have hrun : get_and_unzip_table_csv year month data_dir table w =
              (.ok (), [.ensuredCacheDir,
                .writeFile (pathName
                  (_construct_table_url year month data_dir table)),
                .extracted e,
                .deleted (pathName
                  (_construct_table_url year month data_dir table))]) := by
            simp [get_and_unzip_table_csv, hga, hmem, hhttp, hz, hnc, he]
          rw [hrun]
          refine ⟨?_, ?_, ?_⟩
          · simp [applyEvents, applyEvent, hne, Ne.symm hne, List.erase]
          · simp [applyEvents, applyEvent, hne, Ne.symm hne, List.erase]
          · simp
        · unfold get_and_unzip_table_csv at hok
          rw [hga] at hok
          simp [hmem, hhttp, hz] at hok
      · unfold get_and_unzip_table_csv at hok
        rw [hga] at hok
        simp [hmem, hhttp] at hok
    · unfold get_and_unzip_table_csv at hok
      rw [hga] at hok
      simp [hmem] at hok

/-- Claim C3, witness: the well-behaved run on `wGood` leaves exactly the
file `PUBLIC_DVD_DISPATCHREGIONSUM_202201010000.CSV` and no archive. -/
theorem claim_C3_witness :
    (get_and_unzip_table_csv 2022 1 "DATA" "DISPATCHREGIONSUM" wGood).1
      = .ok () ∧
    wGood.zipCorrupt
      (_construct_table_url 2022 1 "DATA" "DISPATCHREGIONSUM") = false ∧
    wGood.zipEntries (_construct_table_url 2022 1 "DATA" "DISPATCHREGIONSUM")
      = ["PUBLIC_DVD_DISPATCHREGIONSUM_202201010000.CSV"] ∧
    "PUBLIC_DVD_DISPATCHREGIONSUM_202201010000.CSV" ≠
      pathName (_construct_table_url 2022 1 "DATA" "DISPATCHREGIONSUM") ∧
    (applyEvents []
        (get_and_unzip_table_csv 2022 1 "DATA" "DISPATCHREGIONSUM" wGood).2 =
        ["PUBLIC_DVD_DISPATCHREGIONSUM_202201010000.CSV"] ∧
      pathName (_construct_table_url 2022 1 "DATA" "DISPATCHREGIONSUM") ∉
        applyEvents []
          (get_and_unzip_table_csv 2022 1 "DATA" "DISPATCHREGIONSUM" wGood).2 ∧
      FsEvent.deleted
          (pathName (_construct_table_url 2022 1 "DATA" "DISPATCHREGIONSUM"))
        ∈ (get_and_unzip_table_csv 2022 1 "DATA" "DISPATCHREGIONSUM" wGood).2) :=
  ⟨rfl, rfl, rfl, by decide,
    claim_C3 2022 1 "DATA" "DISPATCHREGIONSUM"
      "PUBLIC_DVD_DISPATCHREGIONSUM_202201010000.CSV" wGood rfl rfl rfl
      (by decide)⟩

/-- Claim C4.  For every environment, period, directory and table name
not in the list returned by `get_available_tables`,
`get_and_unzip_table_csv` fails with the "table not available" error
before performing any download: its filesystem trace is empty, so
nothing is written or created. -/
theorem claim_C4 (year month : Nat) (data_dir table : String) (w : Web)
    (tables : List String)
    (hok : get_available_tables year month data_dir w = .ok tables)
    (ht : table ∉ tables) :
    get_and_unzip_table_csv year month data_dir table w =
      (.error (.unknownTable month year), []) := by
  simp [get_and_unzip_table_csv, hok, ht]

/-- Claim C4, witness: requesting `SILLY_TABLE` for a valid period fails
with the unknown-table error and an empty filesystem trace. -/
theorem claim_C4_witness :
    get_available_tables 2022 1 "DATA" wGood
      = .ok ["DISPATCHPRICE", "DISPATCHREGIONSUM"] ∧
    "SILLY_TABLE" ∉ ["DISPATCHPRICE", "DISPATCHREGIONSUM"] ∧
    get_and_unzip_table_csv 2022 1 "DATA" "SILLY_TABLE" wGood =
      (.error (.unknownTable 1 2022), []) :=
  ⟨rfl, by decide,
    claim_C4 2022 1 "DATA" "SILLY_TABLE" wGood
      ["DISPATCHPRICE", "DISPATCHREGIONSUM"] rfl (by decide)⟩

/-- Claim C5.  For every (year, month) pair not present in the catalog
returned by `get_years_and_months` (year absent, or month absent under
that year — exactly `periodAvailable = false`), requesting the table list,
the table sizes, or a download all fail with the "unknown period" error;
the download's filesystem trace is empty (no file writes), and the error
is a returned value, not retried. -/
theorem claim_C5 (year month : Nat) (data_dir table : String) (w : Web)
    (hp : periodAvailable w year month = false) :
    get_available_tables year month data_dir w
      = .error (.unknownPeriod month year) ∧
    get_table_names_and_sizes year month data_dir w
      = .error (.unknownPeriod month year) ∧
    get_and_unzip_table_csv year month data_dir table w =
      (.error (.unknownPeriod month year), []) := by
  refine ⟨?_, ?_, ?_⟩ <;>
    simp [get_and_unzip_table_csv, get_available_tables, _validate_data_dir,
      get_table_names_and_sizes, _get_table_names, _get_all_links_from_soup,
      hp]

/-- Claim C5, witness: year 1999 is not in `wGood`'s catalog, and all
three requests fail with the unknown-period error without file writes. -/
theorem claim_C5_witness :
    periodAvailable wGood 1999 1 = false ∧
    (get_available_tables 1999 1 "DATA" wGood
        = .error (.unknownPeriod 1 1999) ∧
      get_table_names_and_sizes 1999 1 "DATA" wGood
        = .error (.unknownPeriod 1 1999) ∧
      get_and_unzip_table_csv 1999 1 "DATA" "DISPATCHREGIONSUM" wGood =
        (.error (.unknownPeriod 1 1999), [])) :=
  ⟨rfl, claim_C5 1999 1 "DATA" "DISPATCHREGIONSUM" wGood rfl⟩

/-- Claim C6.  For every valid period and every subdirectory name that is
not among the final path components of the links at the year-month
listing, `get_available_tables` fails with the "unknown subdirectory"
error.  The statement quantifies over all environments whose constraints
touch only the root, year and plain year-month pages, so the result
never depends on (and the code never consults) the subdirectory
listing's content. -/
theorem claim_C6 (year month : Nat) (data_dir : String) (w : Web)
    (hp : periodAvailable w year month = true)
    (hd : data_dir ∉
      (w.pages (_construct_yearmonth_url year month none)).map pathName) :
    get_available_tables year month data_dir w
      = .error (.unknownSubdir data_dir) := by
  simp [get_available_tables, _validate_data_dir, _get_all_links_from_soup,
    hp, hd]

/-- Claim C6, witness: `FAKE_DATA` is not a subdirectory of the 2022-01
listing in `wGood`, and the table listing fails accordingly. -/
theorem claim_C6_witness :
    periodAvailable wGood 2022 1 = true ∧
    "FAKE_DATA" ∉
      (wGood.pages (_construct_yearmonth_url 2022 1 none)).map pathName ∧
    get_available_tables 2022 1 "FAKE_DATA" wGood
      = .error (.unknownSubdir "FAKE_DATA") :=
  ⟨rfl, by decide, claim_C6 2022 1 "FAKE_DATA" wGood rfl (by decide)⟩

/-- Claim C7, counterexample.  The claim states that
`get_table_names_and_sizes` validates the subdirectory like
`get_available_tables`.  In `wGood`, for the valid period 2022-01 and the
non-existent subdirectory `FAKE_DATA`, `get_available_tables` fails with
the unknown-subdirectory error but `get_table_names_and_sizes` proceeds
to scrape the constructed URL and returns an (empty) mapping: the source
never calls `_validate_data_dir` there. -/
theorem claim_C7_counterexample :
    periodAvailable wGood 2022 1 = true ∧
    "FAKE_DATA" ∉
      (wGood.pages (_construct_yearmonth_url 2022 1 none)).map pathName ∧
    get_available_tables 2022 1 "FAKE_DATA" wGood
      = .error (.unknownSubdir "FAKE_DATA") ∧
    get_table_names_and_sizes 2022 1 "FAKE_DATA" wGood = .ok [] :=
  ⟨rfl, by decide, rfl, rfl⟩

/-- Claim C7, amended.  `get_table_names_and_sizes` validates only the
period (failing with the unknown-period error exactly like
`get_available_tables`); it performs no subdirectory validation, and for
any valid period it proceeds to scrape the constructed subdirectory URL
and returns a mapping, whatever the subdirectory name. -/
theorem claim_C7 (year month : Nat) (data_dir : String) (w : Web) :
    (periodAvailable w year month = false →
      get_table_names_and_sizes year month data_dir w
        = .error (.unknownPeriod month year)) ∧
    (periodAvailable w year month = true →
      ∃ r, get_table_names_and_sizes year month data_dir w = .ok r) := by
  constructor
  · intro hp
    simp [get_table_names_and_sizes, _get_all_links_from_soup, hp]
  · intro hp
    have h : _get_all_links_from_soup year month (some data_dir) w =
        .ok (w.pages (_construct_yearmonth_url year month (some data_dir))) := by
      simp [_get_all_links_from_soup, hp]
    unfold get_table_names_and_sizes
    rw [h]
    exact ⟨_, rfl⟩

/-- Claim C7, witness: instantiating the amended claim at `wGood`,
2022-01, `FAKE_DATA`. -/
theorem claim_C7_witness :
    periodAvailable wGood 2022 1 = true ∧
    (∃ r, get_table_names_and_sizes 2022 1 "FAKE_DATA" wGood = .ok r) :=
  ⟨rfl, (claim_C7 2022 1 "FAKE_DATA" wGood).2 rfl⟩

/-- Claim C8.  The constructors are pure Lean functions (hence
deterministic: two calls with identical inputs are the same term).
`_construct_filename` produces
`"PUBLIC_DVD_" ++ table ++ "_" ++ year ++ zero-padded-month ++ "010000"`
— in particular the spec's example value for (2022, 1,
DISPATCHREGIONSUM) — and `_construct_table_url` appends the year-month
URL, the optional directory, the filename and `".zip"` exactly as the
claim writes it. -/
theorem claim_C8 :
    _construct_filename 2022 1 "DISPATCHREGIONSUM"
      = "PUBLIC_DVD_DISPATCHREGIONSUM_202201010000" ∧
    (∀ year month table, 1 ≤ month → month ≤ 12 →
      _construct_filename year month table =
        "PUBLIC_DVD_" ++ table ++ "_" ++ strNat year
          ++ (if month < 10 then "0" ++ strNat month else strNat month)
          ++ "010000") ∧
    (∀ year month data_dir table, 1 ≤ month → month ≤ 12 →
      _construct_table_url year month data_dir table =
        MMSDM_ARCHIVE_URL ++ strNat year ++ "/MMSDM_" ++ strNat year ++ "_"
          ++ (if month < 10 then "0" ++ strNat month else strNat month)
          ++ "/MMSDM_Historical_Data_SQLLoader/" ++ data_dir ++ "/"
          ++ _construct_filename year month table ++ ".zip") := by
  refine ⟨rfl, ?_, ?_⟩
  · intro year month table h1 h2
    interval_cases month <;> rfl
  · intro year month data_dir table h1 h2
    interval_cases month <;> rfl

/-- Claim C8, witness: the general formulas instantiated at
(2022, 1, DATA, DISPATCHREGIONSUM). -/
theorem claim_C8_witness :
    (1 : Nat) ≤ 1 ∧ (1 : Nat) ≤ 12 ∧
    _construct_filename 2022 1 "DISPATCHREGIONSUM" =
      "PUBLIC_DVD_" ++ "DISPATCHREGIONSUM" ++ "_" ++ strNat 2022
        ++ (if (1 : Nat) < 10 then "0" ++ strNat 1 else strNat 1)
        ++ "010000" ∧
    _construct_table_url 2022 1 "DATA" "DISPATCHREGIONSUM" =
      MMSDM_ARCHIVE_URL ++ strNat 2022 ++ "/MMSDM_" ++ strNat 2022 ++ "_"
        ++ (if (1 : Nat) < 10 then "0" ++ strNat 1 else strNat 1)
        ++ "/MMSDM_Historical_Data_SQLLoader/" ++ "DATA" ++ "/"
        ++ _construct_filename 2022 1 "DISPATCHREGIONSUM" ++ ".zip" :=
  ⟨by decide, by decide,
    claim_C8.2.1 2022 1 "DISPATCHREGIONSUM" (by decide) (by decide),
    claim_C8.2.2 2022 1 "DATA" "DISPATCHREGIONSUM" (by decide) (by decide)⟩

/-- Claim C9.  Whenever `get_available_tables` succeeds, the returned
list is sorted in ascending (Python lexicographic code-point) order and
contains no duplicate entries: the source deduplicates through a set and
sorts the result. -/
theorem claim_C9 (year month : Nat) (data_dir : String) (w : Web)
    (tables : List String)
    (hok : get_available_tables year month data_dir w = .ok tables) :
    tables.Pairwise (fun a b => pyLe a b = true) ∧ tables.Nodup := by
  unfold get_available_tables at hok
  cases hval : _validate_data_dir year month data_dir w with
  | error e => rw [hval] at hok; simp at hok
  | ok u =>
    rw [hval] at hok
    unfold _get_table_names at hok
    cases hl : _get_all_links_from_soup year month (some data_dir) w with
    | error e => rw [hl] at hok; simp at hok
    | ok links =>
      rw [hl] at hok
      simp only [Except.ok.injEq] at hok
      subst hok
      refine ⟨pySorted_pairwise _, ?_⟩
      exact (pySorted_perm _).symm.nodup (List.nodup_dedup _)

/-- Claim C9, witness: the table list of `wGood`'s 2022-01 `DATA`
listing is sorted and duplicate-free. -/
theorem claim_C9_witness :
    get_available_tables 2022 1 "DATA" wGood
      = .ok ["DISPATCHPRICE", "DISPATCHREGIONSUM"] ∧
    (["DISPATCHPRICE", "DISPATCHREGIONSUM"].Pairwise
        (fun a b => pyLe a b = true) ∧
      (["DISPATCHPRICE", "DISPATCHREGIONSUM"] : List String).Nodup) :=
  ⟨rfl, claim_C9 2022 1 "DATA" wGood
    ["DISPATCHPRICE", "DISPATCHREGIONSUM"] rfl⟩

/-- Claim C10.  The expected zip stem is recovered by matching the fixed
pattern `.*DATA/(.*).zip` against the archive URL.  For every validated
table and every data directory whose name does not end in `DATA`, the
URL contains no `DATA/` substring (validated directory and table names
contain no slash), so the match fails, the content validation can never
succeed, and every downloaded archive — including a correct single-entry
one — is rejected with the "unexpected archive contents" error. -/
theorem claim_C10 (year month : Nat) (data_dir table : String) (w : Web)
    (tables : List String)
    (hok : get_available_tables year month data_dir w = .ok tables)
    (ht : table ∈ tables)
    (hnd : endsDATA data_dir.data = false) :
    matchDataZipGroupS (_construct_table_url year month data_dir table)
      = none ∧
    zipContentsOk w (_construct_table_url year month data_dir table)
      = false ∧
    (w.httpOk (_construct_table_url year month data_dir table) = true →
      (get_and_unzip_table_csv year month data_dir table w).1 =
        .error (.unexpectedContents
          (_construct_table_url year month data_dir table))) := by
  have hd1 := validate_ok_no_slash year month data_dir w
    (tables_ok_validate_ok year month data_dir w tables hok)
  have ht1 := mem_tables_no_slash year month data_dir table w tables hok ht
  have hsub := hasSub_url_false year month data_dir table hd1 hnd ht1
  have hnone := matchDataZipGroupS_eq_none _ hsub
  have hzc := zipContentsOk_of_none w _ hnone
  refine ⟨hnone, hzc, ?_⟩
  intro hhttp
  simp [get_and_unzip_table_csv, hok, ht, hhttp, hzc]

/-- Claim C10, witness: in `wFoo` the subdirectory `FOO` (not ending in
`DATA`) offers a table whose archive holds the one correctly named CSV,
yet the download is rejected with "unexpected archive contents". -/
theorem claim_C10_witness :
    get_available_tables 2022 1 "FOO" wFoo = .ok ["DISPATCHREGIONSUM"] ∧
    "DISPATCHREGIONSUM" ∈ ["DISPATCHREGIONSUM"] ∧
    endsDATA "FOO".data = false ∧
    wFoo.zipEntries (_construct_table_url 2022 1 "FOO" "DISPATCHREGIONSUM") =
      ["PUBLIC_DVD_DISPATCHREGIONSUM_202201010000.CSV"] ∧
    (matchDataZipGroupS (_construct_table_url 2022 1 "FOO" "DISPATCHREGIONSUM")
        = none ∧
      zipContentsOk wFoo
        (_construct_table_url 2022 1 "FOO" "DISPATCHREGIONSUM") = false ∧
      (wFoo.httpOk (_construct_table_url 2022 1 "FOO" "DISPATCHREGIONSUM")
          = true →
        (get_and_unzip_table_csv 2022 1 "FOO" "DISPATCHREGIONSUM" wFoo).1 =
          .error (.unexpectedContents
            (_construct_table_url 2022 1 "FOO" "DISPATCHREGIONSUM")))) :=
  ⟨rfl, by decide, by decide, rfl,
    claim_C10 2022 1 "FOO" "DISPATCHREGIONSUM" wFoo ["DISPATCHREGIONSUM"]
      rfl (by decide) (by decide)⟩

end MmsMonthly
